import Mathlib

/-!
# Verification of the TLS message-I/O core (src/tls/io/tls-io.c)

A shallow embedding of the five functions of tls-io.c:
`treat_SSL_read_error`, `wait_for_first_message`, `save_read_data`,
`read_data_from_ssl` and `write_data_in_ssl`.

Modelling conventions:
  * A heap block is its byte contents, a `List Nat`; the allocated size is
    the list length.  `realloc` keeps the common prefix and zero-fills fresh
    space; `store` is `memcpy` into a block at an offset, truncated at the
    end of the block (what would be an out-of-bounds write in C writes
    nothing beyond the block here).
  * The external `SSL_read` calls are an oracle: a list of `ReadEvent`s
    consumed in order.  Each successful read carries its chunk (the contents
    deposited in `read_buffer`; `SSL_read` is capped at
    `READER_BUFFER_SIZE`, so chunks of interest have length at most 160) and
    a flag telling whether the `realloc` performed on a growth event, if
    any, succeeds.  `closed` is a zero-byte return, `fail e` a negative
    return whose `SSL_get_error` classification is `e`.
  * `milliseconds_sleep` is pure elapsed time; its invocations are counted
    in the `sleeps` field of the leaf results.
  * The read loop recurses over the oracle list; `none` means the oracle
    was exhausted while the loop still wanted another read (a
    non-terminating trace, outside every claim).
-/

set_option linter.unusedVariables false

namespace Tls

/-- Constant FULL_BUFFER_SIZE of tls-io.c: initial allocation for the body. -/
def FULL_BUFFER_SIZE : Nat := 1024

/-- Constant READER_BUFFER_SIZE of tls-io.c: stack read-buffer size, the cap
on the number of bytes a single SSL_read can return. -/
def READER_BUFFER_SIZE : Nat := 160

/-- Constant SLEEP_TIME of tls-io.c (milliseconds per backoff sleep). -/
def SLEEP_TIME : Nat := 10

/-- Constant MAX_RETRIES_TO_START_READING of tls-io.c. -/
def MAX_RETRIES_TO_START_READING : Nat := 10

/-- Constant MAX_RETRIES_TO_STOP_READING of tls-io.c. -/
def MAX_RETRIES_TO_STOP_READING : Nat := 3

/-- Classification of a failed SSL operation, as returned by SSL_get_error. -/
inductive SSLErr where
  | wantRead
  | wantWrite
  | syscall
  | sslProtocol
  | zeroReturn
  | other
deriving DecidableEq, Repr

/-- Reallocation of a heap block to a new size: the common prefix is kept,
fresh space is modelled as zero-filled. -/
def realloc (b : List Nat) (n : Nat) : List Nat :=
  b.take n ++ List.replicate (n - b.length) 0

/-- Write (memcpy) the bytes of chunk `c` into block `b` starting at offset
`off`, truncated at the end of the block. -/
def store (b : List Nat) (off : Nat) (c : List Nat) : List Nat :=
  b.take off ++ c.take (b.length - off) ++ b.drop (off + c.length)

/-- Result of treat_SSL_read_error: the return code, the updated
attempts_after_end_message counter, the updated end_connection flag and the
number of backoff sleeps performed. -/
structure TreatResult where
  ret : Int
  attempts : Nat
  end_connection : Bool
  sleeps : Nat
deriving DecidableEq, Repr

/-- Function treat_SSL_read_error of tls-io.c (lines 45-74). -/
def treat_SSL_read_error (err : SSLErr) (attempts_after_end_message : Nat)
    (total_bytes : Nat) (read_bytes : Int) (end_connection : Bool) :
    TreatResult :=
  if read_bytes = 0 then
    ⟨-1, attempts_after_end_message,
      if total_bytes = 0 then true else end_connection, 0⟩
  else if err = SSLErr.wantRead then
    let a := attempts_after_end_message + 1
    if a = MAX_RETRIES_TO_STOP_READING then ⟨-1, a, end_connection, 1⟩
    else ⟨0, a, end_connection, 1⟩
  else if err = SSLErr.wantWrite ∨ err = SSLErr.syscall ∨
      err = SSLErr.sslProtocol then
    ⟨-1, attempts_after_end_message, end_connection, 0⟩
  else
    ⟨0, attempts_after_end_message, end_connection, 0⟩

/-- Result of wait_for_first_message: the return code, the updated
attempts_to_get_first_message counter and the number of sleeps. -/
structure WaitResult where
  ret : Int
  attempts : Nat
  sleeps : Nat
deriving DecidableEq, Repr

/-- Function wait_for_first_message of tls-io.c (lines 86-94). -/
def wait_for_first_message (attempts_to_get_first_message : Nat) :
    WaitResult :=
  let a := attempts_to_get_first_message + 1
  if a = MAX_RETRIES_TO_START_READING then ⟨-1, a, 1⟩ else ⟨0, a, 1⟩

/-- Result of save_read_data: the (possibly reallocated) body block and the
updated allocated_space. -/
structure SaveResult where
  body : List Nat
  allocated_space : Nat
deriving DecidableEq, Repr

/-- Function save_read_data of tls-io.c (lines 107-122).  The comparison
allocated_space - READER_BUFFER_SIZE >= total_bytes is C int arithmetic,
modelled over Int.  On the growth path allocated_space is doubled first,
then realloc is attempted at the doubled size plus one; on realloc failure
the old block is kept, and the memcpy is performed unconditionally. -/
def save_read_data (body : List Nat) (read_buffer : List Nat)
    (allocated_space : Nat) (total_bytes : Nat) (read_bytes : Nat)
    (realloc_ok : Bool) : SaveResult :=
  if (total_bytes : Int) ≤ (allocated_space : Int) - (READER_BUFFER_SIZE : Int) then
    ⟨store body total_bytes (read_buffer.take read_bytes), allocated_space⟩
  else
    let allocated_space2 := allocated_space * 2
    let body2 := if realloc_ok then realloc body (allocated_space2 + 1) else body
    ⟨store body2 total_bytes (read_buffer.take read_bytes), allocated_space2⟩

/-- One external SSL_read outcome: a successful read depositing `chunk`
(with the success flag of the growth realloc that save_read_data would
perform on it), a zero-byte return, or a negative return classified as
`err`. -/
inductive ReadEvent where
  | data (chunk : List Nat) (realloc_ok : Bool)
  | closed
  | fail (err : SSLErr)
deriving DecidableEq, Repr

/-- The local state of one read_data_from_ssl invocation (lines 131-143). -/
structure LoopState where
  total_bytes : Nat
  first_reading_done : Bool
  attempts_after_end_message : Nat
  attempts_to_get_first_message : Nat
  allocated_space : Nat
  body : List Nat
  end_connection : Bool
deriving DecidableEq, Repr

/-- The failure branch of the read loop (lines 157-167): consult
wait_for_first_message when nothing has been read yet — the loop breaks when
its return differs from -1 — otherwise consult treat_SSL_read_error and
break when it returns -1.  Returns the updated state and whether the loop
breaks. -/
def handle_fail (read_bytes : Int) (err : SSLErr) (s : LoopState) :
    LoopState × Bool :=
  let step1 : LoopState × Bool :=
    if s.first_reading_done then (s, false)
    else
      let w := wait_for_first_message s.attempts_to_get_first_message
      ({ s with attempts_to_get_first_message := w.attempts }, w.ret ≠ -1)
  if step1.2 then (step1.1, true)
  else
    let s1 := step1.1
    let t := treat_SSL_read_error err s1.attempts_after_end_message
      s1.total_bytes read_bytes s1.end_connection
    ({ s1 with attempts_after_end_message := t.attempts,
               end_connection := t.end_connection }, t.ret = -1)

/-- The state after a successful read of `chunk` (lines 149-156): mark the
first reading done, reset the post-boundary counter, append via
save_read_data and advance total_bytes. -/
def apply_chunk (s : LoopState) (chunk : List Nat) (realloc_ok : Bool) :
    LoopState :=
  let sv := save_read_data s.body chunk s.allocated_space s.total_bytes
    chunk.length realloc_ok
  { s with first_reading_done := true, attempts_after_end_message := 0,
           body := sv.body, allocated_space := sv.allocated_space,
           total_bytes := s.total_bytes + chunk.length }

/-- The do-while loop of read_data_from_ssl (lines 144-169), driven by the
oracle list; `some s` is the state at loop exit, `none` means the oracle was
exhausted while the loop wanted another read. -/
def read_loop : List ReadEvent → LoopState → Option LoopState
  | [], _ => none
  | ReadEvent.data chunk realloc_ok :: rest, s =>
    if 0 < chunk.length then
      read_loop rest (apply_chunk s chunk realloc_ok)
    else
      let h := handle_fail 0 SSLErr.zeroReturn s
      if h.2 then some h.1 else read_loop rest h.1
  | ReadEvent.closed :: rest, s =>
      let h := handle_fail 0 SSLErr.zeroReturn s
      if h.2 then some h.1 else read_loop rest h.1
  | ReadEvent.fail err :: rest, s =>
      let h := handle_fail (-1) err s
      if h.2 then some h.1 else read_loop rest h.1

/-- All states visited by the read loop, the entry state first; mirrors
read_loop step for step. -/
def read_states : List ReadEvent → LoopState → List LoopState
  | [], s => [s]
  | ReadEvent.data chunk realloc_ok :: rest, s =>
    if 0 < chunk.length then
      s :: read_states rest (apply_chunk s chunk realloc_ok)
    else
      let h := handle_fail 0 SSLErr.zeroReturn s
      if h.2 then [s, h.1] else s :: read_states rest h.1
  | ReadEvent.closed :: rest, s =>
      let h := handle_fail 0 SSLErr.zeroReturn s
      if h.2 then [s, h.1] else s :: read_states rest h.1
  | ReadEvent.fail err :: rest, s =>
      let h := handle_fail (-1) err s
      if h.2 then [s, h.1] else s :: read_states rest h.1

/-- The state of read_data_from_ssl on entry to the loop (lines 132-142):
zero counters, allocated_space = FULL_BUFFER_SIZE and a freshly malloc'ed
body of exactly FULL_BUFFER_SIZE bytes (contents unspecified, modelled as
zeros). -/
def initState (end_connection₀ : Bool) : LoopState :=
  ⟨0, false, 0, 0, FULL_BUFFER_SIZE, List.replicate FULL_BUFFER_SIZE 0,
    end_connection₀⟩

/-- The finalization step of read_data_from_ssl (lines 171-175): realloc the
body down to total_bytes + 1 — keeping the old block when the realloc
fails — then write the terminating sentinel at index total_bytes. -/
def finalize_body (body : List Nat) (total_bytes : Nat) (realloc_ok : Bool) :
    List Nat :=
  let b := if realloc_ok then realloc body (total_bytes + 1) else body
  store b total_bytes [0]

/-- What read_data_from_ssl hands back: the finalized body block, the
total-byte count and the end-connection flag. -/
structure ReadResult where
  body : List Nat
  total_bytes : Nat
  end_connection : Bool
deriving DecidableEq, Repr

/-- Function read_data_from_ssl of tls-io.c (lines 131-178), as a function
of the SSL_read oracle, the success of the finalize realloc, and the value
the caller left in *end_connection. -/
def read_data_from_ssl (events : List ReadEvent) (final_realloc_ok : Bool)
    (end_connection₀ : Bool) : Option ReadResult :=
  (read_loop events (initState end_connection₀)).map fun s =>
    ⟨finalize_body s.body s.total_bytes final_realloc_ok, s.total_bytes,
      s.end_connection⟩

/-- Outcome of the external SSL_write_ex primitive: success with a written
count, or failure classified by SSL_get_error. -/
inductive WriteOutcome where
  | ok (written : Nat)
  | fail (err : SSLErr)
deriving DecidableEq, Repr

/-- Function write_data_in_ssl of tls-io.c (lines 188-209): on success
return the written count; on failure, the want-write and want-read cases and
the default case of the switch all return -1. -/
def write_data_in_ssl (outcome : WriteOutcome) (message : List Nat)
    (total_bytes : Nat) : Int :=
  match outcome with
  | WriteOutcome.ok written => (written : Int)
  | WriteOutcome.fail status =>
    if status = SSLErr.wantWrite ∨ status = SSLErr.wantRead then -1
    else -1

end Tls

namespace Tls

/-! ## Basic facts about the heap-block operations -/

lemma length_store (b : List Nat) (off : Nat) (c : List Nat) :
    (store b off c).length = b.length := by
  simp only [store, List.length_append, List.length_take, List.length_drop]
  omega

lemma length_realloc (b : List Nat) (n : Nat) :
    (realloc b n).length = n := by
  simp only [realloc, List.length_append, List.length_take,
    List.length_replicate]
  omega

lemma store_take (b : List Nat) (off : Nat) (c : List Nat) :
    (store b off c).take off = b.take off := by
  by_cases h : off ≤ b.length
  · rw [store, List.append_assoc, List.take_append_eq_append_take]
    have h1 : (b.take off).take off = b.take off := by
      rw [List.take_take]; simp
    have h2 : (b.take off).length = off := by
      rw [List.length_take]; omega
    rw [h1, h2]
    simp
  · have hb : b.take off = b := List.take_of_length_le (by omega)
    have h0 : b.length - off = 0 := by omega
    have hs : store b off c = b := by
      rw [store, hb, h0]
      simp [List.drop_eq_nil_of_le (by omega : b.length ≤ off + c.length)]
    rw [hs, hb]

lemma store_of_le (b : List Nat) (off : Nat) (c : List Nat)
    (h : off + c.length ≤ b.length) :
    store b off c = b.take off ++ c ++ b.drop (off + c.length) := by
  rw [store, List.take_of_length_le (by omega : c.length ≤ b.length - off)]

lemma store_take_concat (b : List Nat) (off : Nat) (c : List Nat)
    (h : off + c.length ≤ b.length) :
    (store b off c).take (off + c.length) = b.take off ++ c := by
  rw [store_of_le b off c h, List.append_assoc]
  have hlen : (b.take off).length = off := by
    rw [List.length_take]; omega
  rw [show off + c.length = (b.take off).length + c.length by rw [hlen],
    List.take_append, List.take_left]

lemma realloc_take (b : List Nat) (n m : Nat) (h1 : m ≤ n)
    (h2 : m ≤ b.length) :
    (realloc b n).take m = b.take m := by
  rw [realloc, List.take_append_eq_append_take]
  have ht : (b.take n).take m = b.take m := by
    rw [List.take_take]
    congr 1
    omega
  have h0 : m - (b.take n).length = 0 := by
    rw [List.length_take]; omega
  rw [ht, h0]
  simp

end Tls

namespace Tls

/-! ## The reader's buffer invariant -/

/-- The storage relation maintained by the read loop when every realloc
succeeds: after any growth the block is one byte larger than
allocated_space (the realloc at a growth event asks for
allocated_space + 1 bytes); before the first growth both the block and
allocated_space equal FULL_BUFFER_SIZE, because the initial malloc asks
for exactly FULL_BUFFER_SIZE bytes with no extra sentinel byte. -/
def StorageRel (s : LoopState) : Prop :=
  s.body.length = s.allocated_space + 1 ∨
    (s.body.length = FULL_BUFFER_SIZE ∧
     s.allocated_space = FULL_BUFFER_SIZE)

/-- Invariant of the read loop (all reallocations succeeding). -/
def INV (s : LoopState) : Prop :=
  s.total_bytes ≤ s.allocated_space ∧
  FULL_BUFFER_SIZE ≤ s.allocated_space ∧ StorageRel s

lemma alloc_le_length (s : LoopState) (h : StorageRel s) :
    s.allocated_space ≤ s.body.length := by
  rcases h with h | ⟨h1, h2⟩ <;> omega

lemma INV_initState (e₀ : Bool) : INV (initState e₀) := by
  refine ⟨by simp [initState], by simp [initState], Or.inr ?_⟩
  simp [initState, StorageRel]

/-- The fast path of save_read_data: enough headroom, plain copy. -/
lemma save_fast (body c : List Nat) (alloc total : Nat) (rok : Bool)
    (hfast : (total : Int) ≤ (alloc : Int) - (READER_BUFFER_SIZE : Int)) :
    save_read_data body c alloc total c.length rok =
      ⟨store body total c, alloc⟩ := by
  rw [save_read_data, if_pos hfast, List.take_length]

/-- The growth path of save_read_data with a successful realloc. -/
lemma save_grow (body c : List Nat) (alloc total : Nat)
    (hslow : ¬ (total : Int) ≤ (alloc : Int) - (READER_BUFFER_SIZE : Int)) :
    save_read_data body c alloc total c.length true =
      ⟨store (realloc body (alloc * 2 + 1)) total c, alloc * 2⟩ := by
  rw [save_read_data, if_neg hslow]
  simp [List.take_length]

/-- The growth path of save_read_data with a failing realloc: the old
block is kept, the capacity is doubled anyway, and the copy still runs. -/
lemma save_grow_fail (body c : List Nat) (alloc total : Nat)
    (hslow : ¬ (total : Int) ≤ (alloc : Int) - (READER_BUFFER_SIZE : Int)) :
    save_read_data body c alloc total c.length false =
      ⟨store body total c, alloc * 2⟩ := by
  rw [save_read_data, if_neg hslow]
  simp [List.take_length]

/-- Effect of one successful read on the loop state: invariant
preservation, the appended prefix, and the frame on the other fields. -/
lemma apply_chunk_spec (s : LoopState) (c : List Nat)
    (hc : c.length ≤ READER_BUFFER_SIZE) (hINV : INV s) :
    INV (apply_chunk s c true) ∧
    (apply_chunk s c true).body.take (s.total_bytes + c.length) =
      s.body.take s.total_bytes ++ c ∧
    (apply_chunk s c true).total_bytes = s.total_bytes + c.length ∧
    (apply_chunk s c true).first_reading_done = true ∧
    (apply_chunk s c true).attempts_after_end_message = 0 ∧
    (apply_chunk s c true).end_connection = s.end_connection ∧
    (apply_chunk s c true).attempts_to_get_first_message =
      s.attempts_to_get_first_message := by
  obtain ⟨h1, h2, h3⟩ := hINV
  have hlen : s.allocated_space ≤ s.body.length := alloc_le_length s h3
  have hR : READER_BUFFER_SIZE = 160 := rfl
  have hF : FULL_BUFFER_SIZE = 1024 := rfl
  by_cases hfast :
      (s.total_bytes : Int) ≤ (s.allocated_space : Int) - (READER_BUFFER_SIZE : Int)
  · have hroom : s.total_bytes + c.length ≤ s.body.length := by omega
    rw [apply_chunk, save_fast s.body c s.allocated_space s.total_bytes true hfast]
    refine ⟨⟨?_, ?_, ?_⟩, ?_, rfl, rfl, rfl, rfl, rfl⟩
    · show s.total_bytes + c.length ≤ s.allocated_space
      omega
    · exact h2
    · show StorageRel _
      rcases h3 with h | ⟨ha, hb⟩
      · exact Or.inl (by simpa [length_store] using h)
      · exact Or.inr ⟨by simpa [length_store] using ha, hb⟩
    · exact store_take_concat s.body s.total_bytes c hroom
  · have hgrow : s.total_bytes + c.length ≤ s.allocated_space * 2 := by omega
    rw [apply_chunk, save_grow s.body c s.allocated_space s.total_bytes hfast]
    have hrlen : (realloc s.body (s.allocated_space * 2 + 1)).length =
        s.allocated_space * 2 + 1 := length_realloc ..
    have hroom : s.total_bytes + c.length ≤
        (realloc s.body (s.allocated_space * 2 + 1)).length := by omega
    refine ⟨⟨?_, ?_, ?_⟩, ?_, rfl, rfl, rfl, rfl, rfl⟩
    · show s.total_bytes + c.length ≤ s.allocated_space * 2
      omega
    · show FULL_BUFFER_SIZE ≤ s.allocated_space * 2
      omega
    · show StorageRel _
      exact Or.inl (by simp [length_store, hrlen])
    · show (store (realloc s.body (s.allocated_space * 2 + 1)) s.total_bytes
          c).take (s.total_bytes + c.length) = s.body.take s.total_bytes ++ c
      rw [store_take_concat _ _ _ hroom,
        realloc_take s.body (s.allocated_space * 2 + 1) s.total_bytes
          (by omega) (by omega)]

end Tls

namespace Tls

/-- The state after a run of successful reads. -/
def run_chunks (s : LoopState) (chunks : List (List Nat)) : LoopState :=
  chunks.foldl (fun t c => apply_chunk t c true) s

/-- Running the read loop through a block of successful reads: the loop
consumes the corresponding data events, the invariant is preserved, and
the buffer prefix grows by exactly the concatenation of the chunks. -/
lemma read_loop_chunks (chunks : List (List Nat)) (rest : List ReadEvent)
    (s : LoopState)
    (hwf : ∀ c ∈ chunks, 0 < c.length ∧ c.length ≤ READER_BUFFER_SIZE)
    (hINV : INV s) :
    read_loop (chunks.map (fun c => ReadEvent.data c true) ++ rest) s =
      read_loop rest (run_chunks s chunks) ∧
    INV (run_chunks s chunks) ∧
    (run_chunks s chunks).total_bytes =
      s.total_bytes + chunks.flatten.length ∧
    (run_chunks s chunks).body.take (run_chunks s chunks).total_bytes =
      s.body.take s.total_bytes ++ chunks.flatten ∧
    (run_chunks s chunks).end_connection = s.end_connection ∧
    (run_chunks s chunks).attempts_to_get_first_message =
      s.attempts_to_get_first_message ∧
    (chunks ≠ [] →
      (run_chunks s chunks).first_reading_done = true ∧
      (run_chunks s chunks).attempts_after_end_message = 0) := by
  induction chunks generalizing s with
  | nil =>
    refine ⟨rfl, hINV, by simp [run_chunks], by simp [run_chunks],
      rfl, rfl, by simp⟩
  | cons c cs ih =>
    obtain ⟨hc0, hc160⟩ := hwf c (by simp)
    obtain ⟨hI, htake, htot, hfirst, hatt, hend, hwait⟩ :=
      apply_chunk_spec s c hc160 hINV
    obtain ⟨ihloop, ihI, ihtot, ihtake, ihend, ihwait, ihne⟩ :=
      ih (apply_chunk s c true) (fun d hd => hwf d (by simp [hd])) hI
    have hrun : run_chunks s (c :: cs) = run_chunks (apply_chunk s c true) cs := by
      simp [run_chunks]
    have hloop : read_loop
        ((c :: cs).map (fun d => ReadEvent.data d true) ++ rest) s =
        read_loop (cs.map (fun d => ReadEvent.data d true) ++ rest)
          (apply_chunk s c true) := by
      simp [read_loop, hc0]
    refine ⟨by rw [hloop, ihloop, hrun], by rw [hrun]; exact ihI, ?_, ?_, ?_, ?_, ?_⟩
    · rw [hrun, ihtot, htot]
      simp [List.flatten_cons]
      omega
    · rw [hrun, ihtake, htot, htake]
      simp [List.flatten_cons]
    · rw [hrun, ihend, hend]
    · rw [hrun, ihwait, hwait]
    · intro _
      rw [hrun]
      rcases Decidable.em (cs = []) with hnil | hne
      · subst hnil
        exact ⟨hfirst, hatt⟩
      · exact ihne hne

/-- After data has arrived, a zero-byte read ends the loop at once,
leaving the whole state unchanged. -/
lemma read_loop_closed_end (rest : List ReadEvent) (s : LoopState)
    (h1 : s.first_reading_done = true) (h2 : s.total_bytes ≠ 0) :
    read_loop (ReadEvent.closed :: rest) s = some s := by
  cases s with
  | mk tb fr aa af al bo ec =>
    simp only at h1 h2
    subst h1
    simp [read_loop, handle_fail, treat_SSL_read_error, h2]

/-- After data has arrived with a fresh post-boundary counter, three
consecutive would-block-on-read failures end the loop, touching only the
post-boundary counter. -/
lemma read_loop_wb3 (rest : List ReadEvent) (s : LoopState)
    (h1 : s.first_reading_done = true)
    (h2 : s.attempts_after_end_message = 0) :
    read_loop (ReadEvent.fail SSLErr.wantRead ::
        ReadEvent.fail SSLErr.wantRead ::
        ReadEvent.fail SSLErr.wantRead :: rest) s =
      some { s with attempts_after_end_message := 3 } := by
  cases s with
  | mk tb fr aa af al bo ec =>
    simp only at h1 h2
    subst h1
    subst h2
    simp [read_loop, handle_fail, treat_SSL_read_error,
      MAX_RETRIES_TO_STOP_READING]

end Tls

namespace Tls

/-! ## Finalization -/

/-- Finalization never disturbs the payload prefix, whether or not the
shrink realloc succeeds. -/
lemma finalize_take_payload (body : List Nat) (total : Nat) (ok : Bool)
    (h : total ≤ body.length) :
    (finalize_body body total ok).take total = body.take total := by
  cases ok with
  | false =>
    simp only [finalize_body, Bool.false_eq_true, if_false]
    exact store_take body total [0]
  | true =>
    simp only [finalize_body, if_true]
    rw [store_take, realloc_take body (total + 1) total (by omega) h]

lemma take_concat_sentinel (x z : List Nat) (total : Nat)
    (hx : x.length = total) :
    (x ++ [0] ++ z).take (total + 1) = x ++ [0] := by
  rw [List.take_left' (by simp [hx])]

/-- Full description of finalization on an oversized block: the first
total bytes are kept, the sentinel lands at index total, the block
shrinks to total + 1 exactly when the realloc succeeds and otherwise
keeps its size. -/
lemma finalize_spec (body : List Nat) (total : Nat) (ok : Bool)
    (h : total + 1 ≤ body.length) :
    (finalize_body body total ok).take (total + 1) = body.take total ++ [0] ∧
    (finalize_body body total ok).length =
      (if ok then total + 1 else body.length) := by
  have hto : (body.take total).length = total := by
    rw [List.length_take]; omega
  cases ok with
  | false =>
    simp only [finalize_body, Bool.false_eq_true, if_false]
    constructor
    · rw [store_of_le body total [0] (by simpa using h)]
      exact take_concat_sentinel _ _ total hto
    · exact length_store ..
  | true =>
    have hrl : (realloc body (total + 1)).length = total + 1 :=
      length_realloc ..
    have hrt : (realloc body (total + 1)).take total = body.take total :=
      realloc_take body (total + 1) total (by omega) (by omega)
    simp only [finalize_body, if_true]
    constructor
    · rw [store_of_le _ total [0] (by simp [hrl])]
      rw [take_concat_sentinel _ _ total
        (by rw [List.length_take, hrl]; omega)]
      rw [hrt]
    · rw [length_store, hrl]

/-! ## Frame facts about the failure branch -/

/-- The failure branch never touches the byte counter, the capacity or
the buffer. -/
lemma handle_fail_frame (rb : Int) (err : SSLErr) (s : LoopState) :
    (handle_fail rb err s).1.total_bytes = s.total_bytes ∧
    (handle_fail rb err s).1.allocated_space = s.allocated_space ∧
    (handle_fail rb err s).1.body = s.body ∧
    (handle_fail rb err s).1.first_reading_done = s.first_reading_done := by
  unfold handle_fail
  by_cases hf : s.first_reading_done <;> simp [hf] <;> split <;> simp

/-- The end-connection flag treat_SSL_read_error hands back: written,
to true, exactly when the last read returned zero bytes with no byte
accumulated; unchanged in every other case. -/
lemma treat_end_eq (err : SSLErr) (a total : Nat) (rb : Int) (e : Bool) :
    (treat_SSL_read_error err a total rb e).end_connection =
      if rb = 0 ∧ total = 0 then true else e := by
  unfold treat_SSL_read_error
  by_cases h0 : rb = 0
  · by_cases ht : total = 0 <;> simp [h0, ht]
  · rw [if_neg h0, if_neg (by simp [h0] : ¬(rb = 0 ∧ total = 0))]
    by_cases h1 : err = SSLErr.wantRead
    · by_cases h2 : a + 1 = MAX_RETRIES_TO_STOP_READING <;> simp [h1, h2]
    · rw [if_neg h1]
      split_ifs <;> rfl

/-- The failure branch leaves the end-connection flag alone or sets it
to true. -/
lemma handle_fail_end (rb : Int) (err : SSLErr) (s : LoopState) :
    (handle_fail rb err s).1.end_connection = s.end_connection ∨
    (handle_fail rb err s).1.end_connection = true := by
  by_cases h0 : rb = 0 <;> by_cases ht : s.total_bytes = 0 <;>
    by_cases hf : s.first_reading_done <;>
    by_cases hw :
      (wait_for_first_message s.attempts_to_get_first_message).ret = -1 <;>
    simp [handle_fail, hf, hw, treat_end_eq, h0, ht]

end Tls

namespace Tls

/-- A sub-step of the end-flag analysis: the common failure branch of the
loop either breaks with the handle_fail state or continues the loop from
it. -/
lemma fail_branch_end (rb : Int) (err : SSLErr) (rest : List ReadEvent)
    (s s' : LoopState)
    (ih : ∀ t t', read_loop rest t = some t' →
      t'.end_connection = t.end_connection ∨ t'.end_connection = true)
    (h : (if (handle_fail rb err s).2 then some (handle_fail rb err s).1
          else read_loop rest (handle_fail rb err s).1) = some s') :
    s'.end_connection = s.end_connection ∨ s'.end_connection = true := by
  rcases handle_fail_end rb err s with he | he
  · split at h
    · rw [Option.some_inj] at h
      subst h
      exact Or.inl he
    · rcases ih _ _ h with h1 | h1
      · exact Or.inl (by rw [h1, he])
      · exact Or.inr h1
  · split at h
    · rw [Option.some_inj] at h
      subst h
      exact Or.inr he
    · rcases ih _ _ h with h1 | h1
      · exact Or.inr (by rw [h1, he])
      · exact Or.inr h1

/-- Across one whole run of the read loop the end-connection flag is
either untouched or set to true; it is never written false. -/
lemma read_loop_end_mono (events : List ReadEvent) :
    ∀ s s', read_loop events s = some s' →
      s'.end_connection = s.end_connection ∨ s'.end_connection = true := by
  induction events with
  | nil =>
    intro s s' h
    simp [read_loop] at h
  | cons e rest ih =>
    intro s s' h
    cases e with
    | data c rok =>
      by_cases hc : 0 < c.length
      · simp only [read_loop, if_pos hc] at h
        rcases ih _ _ h with h1 | h1
        · exact Or.inl (by rw [h1]; rfl)
        · exact Or.inr h1
      · simp only [read_loop, if_neg hc] at h
        exact fail_branch_end _ _ _ _ _ ih h
    | closed =>
      simp only [read_loop] at h
      exact fail_branch_end _ _ _ _ _ ih h
    | fail e2 =>
      simp only [read_loop] at h
      exact fail_branch_end _ _ _ _ _ ih h

/-- Well-formed oracle event: the chunk of a successful read respects the
SSL_read cap, and (for the all-allocations-succeed claims) its growth
realloc succeeds. -/
def EventWF : ReadEvent → Prop
  | ReadEvent.data c ok => c.length ≤ READER_BUFFER_SIZE ∧ ok = true
  | ReadEvent.closed => True
  | ReadEvent.fail _ => True

lemma INV_handle_fail (rb : Int) (err : SSLErr) (s : LoopState)
    (h : INV s) : INV (handle_fail rb err s).1 := by
  obtain ⟨h1, h2, h3, h4⟩ := handle_fail_frame rb err s
  unfold INV StorageRel at h ⊢
  rw [h1, h2, h3]
  exact h

lemma mem_fail_states (rb : Int) (err : SSLErr) (rest : List ReadEvent)
    (s t : LoopState)
    (ht : t ∈ (if (handle_fail rb err s).2 then
        [s, (handle_fail rb err s).1]
      else s :: read_states rest (handle_fail rb err s).1)) :
    t = s ∨ t = (handle_fail rb err s).1 ∨
      t ∈ read_states rest (handle_fail rb err s).1 := by
  split at ht <;> simp at ht <;> tauto

/-- Every state the loop visits keeps the buffer invariant, as long as
every event is well-formed. -/
lemma read_states_INV (events : List ReadEvent) :
    ∀ s : LoopState, (∀ e ∈ events, EventWF e) → INV s →
      ∀ t ∈ read_states events s, INV t := by
  induction events with
  | nil =>
    intro s hwf hI t ht
    simp [read_states] at ht
    subst ht
    exact hI
  | cons e rest ih =>
    intro s hwf hI t ht
    have hwfrest : ∀ x ∈ rest, EventWF x := fun x hx => hwf x (by simp [hx])
    cases e with
    | data c rok =>
      have hwfd : EventWF (ReadEvent.data c rok) := hwf _ (by simp)
      rw [show EventWF (ReadEvent.data c rok) =
        (c.length ≤ READER_BUFFER_SIZE ∧ rok = true) from rfl] at hwfd
      obtain ⟨hc160, hok⟩ := hwfd
      subst hok
      by_cases hc : 0 < c.length
      · simp only [read_states, if_pos hc] at ht
        rcases List.mem_cons.mp ht with h | h
        · subst h; exact hI
        · exact ih _ hwfrest (apply_chunk_spec s c hc160 hI).1 t h
      · simp only [read_states, if_neg hc] at ht
        rcases mem_fail_states _ _ _ _ _ ht with h | h | h
        · subst h; exact hI
        · subst h; exact INV_handle_fail _ _ _ hI
        · exact ih _ hwfrest (INV_handle_fail _ _ _ hI) t h
    | closed =>
      simp only [read_states] at ht
      rcases mem_fail_states _ _ _ _ _ ht with h | h | h
      · subst h; exact hI
      · subst h; exact INV_handle_fail _ _ _ hI
      · exact ih _ hwfrest (INV_handle_fail _ _ _ hI) t h
    | fail e2 =>
      simp only [read_states] at ht
      rcases mem_fail_states _ _ _ _ _ ht with h | h | h
      · subst h; exact hI
      · subst h; exact INV_handle_fail _ _ _ hI
      · exact ih _ hwfrest (INV_handle_fail _ _ _ hI) t h

end Tls

namespace Tls

/-! ## Claim theorems -/

/-- Claim C4: treat_SSL_read_error implements the classifier decision
table.  A zero-byte last read stops (returns -1) and writes the
end-of-connection flag to true exactly when total_bytes = 0; a
would-block-on-read error (when the last read was not zero bytes)
increments the post-boundary counter, sleeps once, and stops exactly when
the counter reaches MAX_RETRIES_TO_STOP_READING = 3; would-block-on-write,
syscall-level and protocol-level errors stop immediately; every other
classification continues (returns 0). -/
theorem claim_treat_decision_table (err : SSLErr) (a total : Nat)
    (rb : Int) (e : Bool) :
    (rb = 0 →
      treat_SSL_read_error err a total rb e =
        ⟨-1, a, if total = 0 then true else e, 0⟩) ∧
    (rb ≠ 0 → err = SSLErr.wantRead →
      treat_SSL_read_error err a total rb e =
        ⟨if a + 1 = MAX_RETRIES_TO_STOP_READING then -1 else 0,
          a + 1, e, 1⟩) ∧
    (rb ≠ 0 →
      (err = SSLErr.wantWrite ∨ err = SSLErr.syscall ∨
        err = SSLErr.sslProtocol) →
      treat_SSL_read_error err a total rb e = ⟨-1, a, e, 0⟩) ∧
    (rb ≠ 0 → err ≠ SSLErr.wantRead → err ≠ SSLErr.wantWrite →
      err ≠ SSLErr.syscall → err ≠ SSLErr.sslProtocol →
      treat_SSL_read_error err a total rb e = ⟨0, a, e, 0⟩) := by
  refine ⟨?_, ?_, ?_, ?_⟩
  · intro h0
    rw [treat_SSL_read_error, if_pos h0]
  · intro h0 h1
    subst h1
    by_cases h2 : a + 1 = MAX_RETRIES_TO_STOP_READING <;>
      simp [treat_SSL_read_error, h0, h2]
  · intro h0 h1
    rcases h1 with h | h | h <;> subst h <;>
      simp [treat_SSL_read_error, h0]
  · intro h0 h1 h2 h3 h4
    simp [treat_SSL_read_error, h0, h1, h2, h3, h4]

theorem claim_treat_decision_table_witness :
    treat_SSL_read_error SSLErr.wantRead 2 5 (-1) false =
      ⟨if 2 + 1 = MAX_RETRIES_TO_STOP_READING then -1 else 0,
        2 + 1, false, 1⟩ :=
  (claim_treat_decision_table SSLErr.wantRead 2 5 (-1) false).2.1
    (by decide) rfl

/-- Claim C9: write_data_in_ssl returns the written count when
SSL_write_ex succeeds (a fully written 500-byte payload returns 500), and
returns -1 for every failure classification — would-block-on-read,
would-block-on-write, and any other — with no retry performed. -/
theorem claim_write_outcomes :
    (∀ (message : List Nat) (n total : Nat),
      write_data_in_ssl (WriteOutcome.ok n) message total = (n : Int)) ∧
    write_data_in_ssl (WriteOutcome.ok 500) (List.replicate 500 1) 500
      = 500 ∧
    (∀ (message : List Nat) (total : Nat) (err : SSLErr),
      write_data_in_ssl (WriteOutcome.fail err) message total = -1) := by
  refine ⟨fun _ _ _ => rfl, rfl, fun m t err => ?_⟩
  show (if err = SSLErr.wantWrite ∨ err = SSLErr.wantRead
    then (-1 : Int) else -1) = -1
  split_ifs <;> rfl

set_option maxRecDepth 10000 in
/-- Claim C6 counterexample: with growth needed (total 900 exceeds the
864-byte headroom mark of a 1024-byte capacity) and the realloc failing,
save_read_data still writes the new byte into the old block at offset
900 — the buffer does not stay unchanged as the claim requires, and the
function signals nothing (it returns only the block and the capacity). -/
theorem claim_alloc_failure_cex :
    (save_read_data (List.replicate 1024 7) [42] 1024 900 1 false).body ≠
      List.replicate 1024 7 := by
  have e1 : (save_read_data (List.replicate 1024 7) [42] 1024 900 1
      false).body = store (List.replicate 1024 7) 900 [42] :=
    congrArg SaveResult.body
      (save_grow_fail (List.replicate 1024 7) [42] 1024 900 (by decide))
  rw [e1, store_of_le _ _ _
    (by simp : 900 + [(42 : Nat)].length ≤ (List.replicate 1024 7).length)]
  intro hcontra
  have h2 := congrArg (List.drop 900) hcontra
  rw [List.append_assoc,
    List.drop_left'
      (by simp : ((List.replicate 1024 (7 : Nat)).take 900).length = 900)]
    at h2
  rw [show (List.replicate 1024 (7 : Nat)).drop (900 + [(42 : Nat)].length) =
      List.replicate 123 7 by decide] at h2
  rw [show (List.replicate 1024 (7 : Nat)).drop 900 =
      List.replicate 124 7 by decide] at h2
  exact absurd h2 (by decide)

/-- Claim C6 amended: when growth is needed and the reallocation fails,
the append keeps the old storage (same size, the accumulated prefix below
total_bytes intact) and doubles the recorded capacity anyway, but it
still copies the new bytes at offset total_bytes into the old storage,
and no allocation error is signalled to the caller — save_read_data has
no error output at all. -/
theorem claim_alloc_failure_amended (body chunk : List Nat)
    (alloc total : Nat)
    (hgrow : ¬ (total : Int) ≤ (alloc : Int) - (READER_BUFFER_SIZE : Int)) :
    (save_read_data body chunk alloc total chunk.length
        false).allocated_space = alloc * 2 ∧
    (save_read_data body chunk alloc total chunk.length
        false).body.length = body.length ∧
    (save_read_data body chunk alloc total chunk.length
        false).body.take total = body.take total ∧
    (total + chunk.length ≤ body.length →
      (save_read_data body chunk alloc total chunk.length false).body =
        body.take total ++ chunk ++ body.drop (total + chunk.length)) := by
  rw [save_grow_fail body chunk alloc total hgrow]
  exact ⟨rfl, length_store .., store_take ..,
    fun h => store_of_le _ _ _ h⟩

theorem claim_alloc_failure_amended_witness :
    (save_read_data [1, 2, 3, 4] [9] 4 2 1 false).body = [1, 2, 9, 4] := by
  have h := (claim_alloc_failure_amended [1, 2, 3, 4] [9] 4 2
    (by decide)).2.2.2 (by decide)
  simpa using h

/-- Claim C7: appending k > 0 bytes through save_read_data when the
headroom is insufficient (growth path, the realloc succeeding) results in
allocated_capacity ≥ total_bytes + k, preserves the accumulated prefix
byte-for-byte, and makes the k new bytes readable right after it,
whatever the number of prior doubling events reflected in alloc. -/
theorem claim_growth_append_roundtrip (body chunk : List Nat)
    (alloc total : Nat)
    (h1 : total ≤ alloc) (h2 : READER_BUFFER_SIZE ≤ alloc)
    (h3 : alloc ≤ body.length) (h4 : 0 < chunk.length)
    (h5 : chunk.length ≤ READER_BUFFER_SIZE)
    (hgrow : ¬ (total : Int) ≤ (alloc : Int) - (READER_BUFFER_SIZE : Int)) :
    total + chunk.length ≤
      (save_read_data body chunk alloc total chunk.length
        true).allocated_space ∧
    (save_read_data body chunk alloc total chunk.length true).body.take
        (total + chunk.length) = body.take total ++ chunk := by
  rw [save_grow body chunk alloc total hgrow]
  have hR : READER_BUFFER_SIZE = 160 := rfl
  have hrl : (realloc body (alloc * 2 + 1)).length = alloc * 2 + 1 :=
    length_realloc ..
  constructor
  · show total + chunk.length ≤ alloc * 2
    omega
  · rw [store_take_concat _ _ _ (by omega)]
    rw [realloc_take body (alloc * 2 + 1) total (by omega) (by omega)]

theorem claim_growth_append_roundtrip_witness :
    900 + ([1, 2, 3] : List Nat).length ≤
      (save_read_data (List.replicate 1024 5) [1, 2, 3] 1024 900
        ([1, 2, 3] : List Nat).length true).allocated_space ∧
    (save_read_data (List.replicate 1024 5) [1, 2, 3] 1024 900
        ([1, 2, 3] : List Nat).length true).body.take
        (900 + ([1, 2, 3] : List Nat).length) =
      (List.replicate 1024 5).take 900 ++ [1, 2, 3] :=
  claim_growth_append_roundtrip (List.replicate 1024 5) [1, 2, 3] 1024 900
    (by decide) (by decide)
    (by rw [List.length_replicate])
    (by decide) (by decide) (by decide)

/-- Claim C8: finalization never truncates.  On an oversized block the
first total_bytes bytes survive with the sentinel written right after
them; a successful shrink yields a block of exactly total_bytes + 1
bytes, while a failed shrink keeps the original block, its size
unchanged and all accumulated data still in place. -/
theorem claim_finalize_never_truncates (body : List Nat) (total : Nat)
    (ok : Bool) (h : total + 1 ≤ body.length) :
    (finalize_body body total ok).take (total + 1) =
      body.take total ++ [0] ∧
    (finalize_body body total ok).length =
      (if ok then total + 1 else body.length) :=
  finalize_spec body total ok h

theorem claim_finalize_never_truncates_witness :
    (finalize_body [5, 6, 7, 8] 2 false).take (2 + 1) =
      [5, 6, 7, 8].take 2 ++ [0] ∧
    (finalize_body [5, 6, 7, 8] 2 false).length =
      (if false then 2 + 1 else ([5, 6, 7, 8] : List Nat).length) :=
  claim_finalize_never_truncates [5, 6, 7, 8] 2 false (by decide)

end Tls

namespace Tls

set_option maxRecDepth 10000 in
/-- Claim C1 (code bug): when the very first raw read returns zero bytes,
read_data_from_ssl does return an empty payload (total_bytes = 0), but
the end-of-connection flag is NOT set: the inverted
wait_for_first_message check of lines 160-162 breaks out of the loop
before treat_SSL_read_error — the only writer of the flag — can run, so a
caller-initialized false stays false, against the claim's required
true. -/
theorem claim_first_read_zero_flag_unset :
    read_data_from_ssl [ReadEvent.closed] true false =
      some ⟨[0], 0, false⟩ := rfl

/-- Claim C2 (code bug): with no data received yet, a single failed raw
read already ends the read loop, whatever the rest of the oracle holds:
wait_for_first_message increments the counter to 1 and returns 0, and the
loop's check (wait_for_first_message(...) != -1) breaks on that very
return. The loop therefore aborts with the counter at 1, never at the
documented ceiling of 10. -/
theorem claim_first_waiter_breaks_after_one_attempt
    (rest : List ReadEvent) (e₀ : Bool) :
    read_loop (ReadEvent.fail SSLErr.wantRead :: rest) (initState e₀) =
      some { initState e₀ with attempts_to_get_first_message := 1 } := rfl

/-- Claim C3: for every sequence of chunks c1..cn (n ≥ 1, each nonempty,
each within the 160-byte reader cap, growth reallocations succeeding)
followed by a zero-byte termination or by three consecutive
would-block-on-read failures, read_data_from_ssl returns a payload whose
total_bytes bytes are exactly the concatenation c1 ++ ... ++ cn, with the
end-connection flag still false. -/
theorem claim_read_returns_concatenation (chunks : List (List Nat))
    (term : List ReadEvent) (final_ok : Bool)
    (hne : chunks ≠ [])
    (hwf : ∀ c ∈ chunks, 0 < c.length ∧ c.length ≤ READER_BUFFER_SIZE)
    (hterm : term = [ReadEvent.closed] ∨
      term = [ReadEvent.fail SSLErr.wantRead, ReadEvent.fail SSLErr.wantRead,
        ReadEvent.fail SSLErr.wantRead]) :
    ∃ r, read_data_from_ssl
        (chunks.map (fun c => ReadEvent.data c true) ++ term) final_ok false
        = some r ∧
      r.total_bytes = chunks.flatten.length ∧
      r.body.take r.total_bytes = chunks.flatten ∧
      r.end_connection = false := by
  obtain ⟨hloop, hI, htot, htake, hend, hwait, hne2⟩ :=
    read_loop_chunks chunks term (initState false) hwf (INV_initState false)
  obtain ⟨hfirst, hatt⟩ := hne2 hne
  have htot0 : (run_chunks (initState false) chunks).total_bytes =
      chunks.flatten.length := by
    rw [htot]
    simp [initState]
  have htotpos : (run_chunks (initState false) chunks).total_bytes ≠ 0 := by
    rw [htot0]
    rcases chunks with _ | ⟨c, cs⟩
    · exact absurd rfl hne
    · have hc := (hwf c (by simp)).1
      simp only [List.flatten_cons, List.length_append]
      omega
  have hbody : (run_chunks (initState false) chunks).total_bytes ≤
      (run_chunks (initState false) chunks).body.length := by
    obtain ⟨hA, hB, hC⟩ := hI
    have := alloc_le_length _ hC
    omega
  have htake2 : (run_chunks (initState false) chunks).body.take
      (run_chunks (initState false) chunks).total_bytes = chunks.flatten := by
    rw [htake]
    rfl
  have hend2 : (run_chunks (initState false) chunks).end_connection
      = false := hend
  rcases hterm with ht | ht <;> subst ht
  · refine ⟨⟨finalize_body (run_chunks (initState false) chunks).body
      (run_chunks (initState false) chunks).total_bytes final_ok,
      (run_chunks (initState false) chunks).total_bytes,
      (run_chunks (initState false) chunks).end_connection⟩, ?_, ?_, ?_, ?_⟩
    · simp only [read_data_from_ssl]
      rw [hloop, read_loop_closed_end [] _ hfirst htotpos]
      rfl
    · exact htot0
    · show (finalize_body _ _ _).take _ = _
      rw [finalize_take_payload _ _ _ hbody]
      exact htake2
    · exact hend2
  · refine ⟨⟨finalize_body (run_chunks (initState false) chunks).body
      (run_chunks (initState false) chunks).total_bytes final_ok,
      (run_chunks (initState false) chunks).total_bytes,
      (run_chunks (initState false) chunks).end_connection⟩, ?_, ?_, ?_, ?_⟩
    · simp only [read_data_from_ssl]
      rw [hloop, read_loop_wb3 [] _ hfirst hatt]
      rfl
    · exact htot0
    · show (finalize_body _ _ _).take _ = _
      rw [finalize_take_payload _ _ _ hbody]
      exact htake2
    · exact hend2

theorem claim_read_returns_concatenation_witness :
    ∃ r, read_data_from_ssl
        ([[1], [2]].map (fun c => ReadEvent.data c true) ++
          [ReadEvent.closed]) true false = some r ∧
      r.total_bytes = ([[1], [2]] : List (List Nat)).flatten.length ∧
      r.body.take r.total_bytes = ([[1], [2]] : List (List Nat)).flatten ∧
      r.end_connection = false :=
  claim_read_returns_concatenation [[1], [2]] [ReadEvent.closed] true
    (by decide) (by decide) (Or.inl rfl)

end Tls

namespace Tls

/-! ## Claim C5: the capacity/storage invariant -/

lemma self_mem_read_states (events : List ReadEvent) (s : LoopState) :
    s ∈ read_states events s := by
  cases events with
  | nil => simp [read_states]
  | cons e rest =>
    cases e with
    | data c rok =>
      by_cases hc : 0 < c.length
      · simp [read_states, hc]
      · simp only [read_states, if_neg hc]
        split <;> simp
    | closed =>
      simp only [read_states]
      split <;> simp
    | fail e2 =>
      simp only [read_states]
      split <;> simp

lemma mem_read_states_data (c : List Nat) (rok : Bool)
    (rest : List ReadEvent) (s t : LoopState) (hc : 0 < c.length)
    (ht : t ∈ read_states rest (apply_chunk s c rok)) :
    t ∈ read_states (ReadEvent.data c rok :: rest) s := by
  simp only [read_states, if_pos hc]
  exact List.mem_cons_of_mem s ht

/-- Size bookkeeping of a fast-path append: the capacity and the block
size stay, the byte counter advances. -/
lemma fast_step_facts (s : LoopState) (c : List Nat) (tb al bl cl : Nat)
    (ha : s.total_bytes = tb) (hb : s.allocated_space = al)
    (hc : s.body.length = bl) (hcl : c.length = cl)
    (hcond : (tb : Int) ≤ (al : Int) - (READER_BUFFER_SIZE : Int)) :
    (apply_chunk s c true).total_bytes = tb + cl ∧
    (apply_chunk s c true).allocated_space = al ∧
    (apply_chunk s c true).body.length = bl := by
  rw [apply_chunk, save_fast s.body c s.allocated_space s.total_bytes true
    (by rw [ha, hb]; exact hcond)]
  exact ⟨by rw [ha, hcl], by rw [hb], by rw [length_store, hc]⟩

/-- The 160-byte chunk of the capacity counterexample trace. -/
def cexChunk160 : List Nat := List.replicate 160 1

/-- The 64-byte chunk of the capacity counterexample trace. -/
def cexChunk64 : List Nat := List.replicate 64 1

/-- The counterexample oracle: reads of 160, 160, 160, 160, 160, 64 and
160 bytes, every append on the fast path, total exactly 1024. -/
def capacity_cex_events : List ReadEvent :=
  [ReadEvent.data cexChunk160 true, ReadEvent.data cexChunk160 true,
   ReadEvent.data cexChunk160 true, ReadEvent.data cexChunk160 true,
   ReadEvent.data cexChunk160 true, ReadEvent.data cexChunk64 true,
   ReadEvent.data cexChunk160 true]

/-- The successive loop states of the counterexample trace. -/
def cexS0 : LoopState := initState false

def cexS1 : LoopState := apply_chunk cexS0 cexChunk160 true

def cexS2 : LoopState := apply_chunk cexS1 cexChunk160 true

def cexS3 : LoopState := apply_chunk cexS2 cexChunk160 true

def cexS4 : LoopState := apply_chunk cexS3 cexChunk160 true

def cexS5 : LoopState := apply_chunk cexS4 cexChunk160 true

def cexS6 : LoopState := apply_chunk cexS5 cexChunk64 true

def cexS7 : LoopState := apply_chunk cexS6 cexChunk160 true

lemma cexChunk160_length : cexChunk160.length = 160 := by
  simp [cexChunk160]

lemma cexChunk64_length : cexChunk64.length = 64 := by
  simp [cexChunk64]

lemma cexS7_facts :
    cexS7.total_bytes = 1024 ∧ cexS7.allocated_space = 1024 ∧
      cexS7.body.length = 1024 := by
  have f0c : cexS0.body.length = 1024 := by
    show (List.replicate FULL_BUFFER_SIZE 0).length = 1024
    rw [List.length_replicate]
    rfl
  have f1 := fast_step_facts cexS0 cexChunk160 0 1024 1024 160
    rfl rfl f0c cexChunk160_length (by decide)
  have f2 := fast_step_facts cexS1 cexChunk160 160 1024 1024 160
    f1.1 f1.2.1 f1.2.2 cexChunk160_length (by decide)
  have f3 := fast_step_facts cexS2 cexChunk160 320 1024 1024 160
    f2.1 f2.2.1 f2.2.2 cexChunk160_length (by decide)
  have f4 := fast_step_facts cexS3 cexChunk160 480 1024 1024 160
    f3.1 f3.2.1 f3.2.2 cexChunk160_length (by decide)
  have f5 := fast_step_facts cexS4 cexChunk160 640 1024 1024 160
    f4.1 f4.2.1 f4.2.2 cexChunk160_length (by decide)
  have f6 := fast_step_facts cexS5 cexChunk64 800 1024 1024 64
    f5.1 f5.2.1 f5.2.2 cexChunk64_length (by decide)
  have f7 := fast_step_facts cexS6 cexChunk160 864 1024 1024 160
    f6.1 f6.2.1 f6.2.2 cexChunk160_length (by decide)
  exact f7

lemma cexS7_mem :
    cexS7 ∈ read_states capacity_cex_events cexS0 := by
  have hpos160 : 0 < cexChunk160.length := by
    rw [cexChunk160_length]; omega
  have hpos64 : 0 < cexChunk64.length := by
    rw [cexChunk64_length]; omega
  show cexS7 ∈ read_states
    (ReadEvent.data cexChunk160 true :: ReadEvent.data cexChunk160 true ::
     ReadEvent.data cexChunk160 true :: ReadEvent.data cexChunk160 true ::
     ReadEvent.data cexChunk160 true :: ReadEvent.data cexChunk64 true ::
     ReadEvent.data cexChunk160 true :: []) cexS0
  exact mem_read_states_data _ _ _ _ _ hpos160
    (mem_read_states_data _ _ _ _ _ hpos160
      (mem_read_states_data _ _ _ _ _ hpos160
        (mem_read_states_data _ _ _ _ _ hpos160
          (mem_read_states_data _ _ _ _ _ hpos160
            (mem_read_states_data _ _ _ _ _ hpos64
              (mem_read_states_data _ _ _ _ _ hpos160
                (self_mem_read_states [] cexS7)))))))

/-- Claim C5 counterexample: with the oracle delivering chunks of
160 x 5, 64 and 160 bytes — every append on the fast path, all
reallocations succeeding — the loop reaches a state with total_bytes =
1024 stored in a 1024-byte block: the storage holds total_bytes bytes but
not total_bytes + 1, because the initial malloc of line 142 reserves
FULL_BUFFER_SIZE bytes with no extra sentinel byte. -/
theorem claim_capacity_invariant_cex :
    cexS7 ∈ read_states capacity_cex_events (initState false) ∧
      cexS7.body.length < cexS7.total_bytes + 1 := by
  refine ⟨cexS7_mem, ?_⟩
  rw [cexS7_facts.1, cexS7_facts.2.2]
  omega

/-- Claim C5 amended: throughout the read loop (well-formed oracle, all
reallocations succeeding), allocated_capacity ≥ total_bytes always
holds, and the storage holds at least total_bytes + 1 bytes except in
the boundary states where total_bytes has climbed to exactly
FULL_BUFFER_SIZE = 1024 before any growth event: there the storage holds
exactly total_bytes bytes, the initial malloc having reserved no
sentinel headroom; the finalize reallocation is what restores the
missing byte. -/
theorem claim_capacity_invariant_amended (events : List ReadEvent)
    (e₀ : Bool) (hwf : ∀ e ∈ events, EventWF e) :
    ∀ s ∈ read_states events (initState e₀),
      s.total_bytes ≤ s.allocated_space ∧
      (s.total_bytes + 1 ≤ s.body.length ∨
        (s.total_bytes = FULL_BUFFER_SIZE ∧
         s.body.length = FULL_BUFFER_SIZE ∧
         s.allocated_space = FULL_BUFFER_SIZE)) := by
  intro s hs
  obtain ⟨h1, h2, h3⟩ :=
    read_states_INV events (initState e₀) hwf (INV_initState e₀) s hs
  refine ⟨h1, ?_⟩
  rcases h3 with h | ⟨ha, hb⟩
  · left; omega
  · by_cases ht : s.total_bytes = FULL_BUFFER_SIZE
    · right; exact ⟨ht, ha, hb⟩
    · left; omega

theorem claim_capacity_invariant_amended_witness :
    (initState false).total_bytes ≤ (initState false).allocated_space ∧
    ((initState false).total_bytes + 1 ≤ (initState false).body.length ∨
      ((initState false).total_bytes = FULL_BUFFER_SIZE ∧
       (initState false).body.length = FULL_BUFFER_SIZE ∧
       (initState false).allocated_space = FULL_BUFFER_SIZE)) :=
  claim_capacity_invariant_amended [ReadEvent.closed] false
    (fun e he => by
      rw [List.mem_singleton] at he
      subst he
      exact True.intro)
    (initState false) (self_mem_read_states [ReadEvent.closed] _)

/-- Claim C10: the end-connection flag is written only by
treat_SSL_read_error, which writes true exactly when the last read
returned zero bytes with total_bytes = 0 and passes the flag through
otherwise; the reader as a whole never writes false to it, so whenever
that single write does not fire the flag handed back equals whatever the
caller initialized it to. -/
theorem claim_end_flag_frame :
    (∀ (err : SSLErr) (a total : Nat) (rb : Int) (e : Bool),
      (treat_SSL_read_error err a total rb e).end_connection =
        if rb = 0 ∧ total = 0 then true else e) ∧
    (∀ (events : List ReadEvent) (final_ok e₀ : Bool) (r : ReadResult),
      read_data_from_ssl events final_ok e₀ = some r →
      r.end_connection = e₀ ∨ r.end_connection = true) := by
  refine ⟨treat_end_eq, fun events fok e₀ r h => ?_⟩
  simp only [read_data_from_ssl] at h
  rcases ho : read_loop events (initState e₀) with _ | s
  · rw [ho] at h
    simp at h
  · rw [ho] at h
    rw [Option.map_some', Option.some_inj] at h
    have hr : r.end_connection = s.end_connection := by
      rw [← h]
    rcases read_loop_end_mono events (initState e₀) s ho with h1 | h1
    · exact Or.inl (by rw [hr, h1]; rfl)
    · exact Or.inr (by rw [hr, h1])

set_option maxRecDepth 10000 in
theorem claim_end_flag_frame_witness :
    (treat_SSL_read_error SSLErr.zeroReturn 0 0 0 true).end_connection =
      (if (0 : Int) = 0 ∧ (0 : Nat) = 0 then true else true) ∧
    ((⟨[0], 0, false⟩ : ReadResult).end_connection = false ∨
      (⟨[0], 0, false⟩ : ReadResult).end_connection = true) :=
  ⟨claim_end_flag_frame.1 SSLErr.zeroReturn 0 0 0 true,
   claim_end_flag_frame.2 [ReadEvent.closed] true false ⟨[0], 0, false⟩ rfl⟩

end Tls
